import Mathlib

/-!
Verification development for the structural pdf editor of `pdf_tchotchke`
(modules `redaction/parser.py`, `redaction/dobjects.py`, `redaction/editor.py`,
`redaction/xrefs.py`, `redaction/patterns.py`).

Byte buffers are modelled as `List Char`; every Python regular-expression
operation used by the code involves only literal patterns or simple
character-class scanners, and each one is embedded below as an executable
function together with a comment naming the pattern it models.
-/

set_option maxRecDepth 100000

namespace Pdf

/-- Byte strings of the document are modelled as lists of characters. -/
abbrev Bytes := List Char

/-- Test whether the literal pattern `pat` occurs in `t` starting at index `i`. -/
def matchesAt (pat t : Bytes) (i : Nat) : Bool :=
  List.isPrefixOf pat (t.drop i)

/-- Python slice `t[a:b]` (with the usual clamping). -/
def slice (t : Bytes) (a b : Nat) : Bytes :=
  (t.take b).drop a

/-- Fuelled worker for `scanOcc`. -/
def scanOccF (pat : Bytes) : Nat → Nat → Bytes → List Nat
  | 0, _, _ => []
  | _ + 1, _, [] => []
  | fuel + 1, i, c :: rest =>
    if List.isPrefixOf pat (c :: rest) then
      i :: scanOccF pat fuel (i + pat.length) (rest.drop (pat.length - 1))
    else
      scanOccF pat fuel (i + 1) rest

/-- Start positions of the non-overlapping left-to-right occurrences of the
literal pattern `pat` in `t`, exactly as `re.finditer` reports matches of a
pattern free of metacharacters (after a match the scan resumes at its end). -/
def scanOcc (pat t : Bytes) : List Nat :=
  scanOccF pat t.length 0 t

/-- Position of the first occurrence of `pat` in `t`, as `re.search(...).start()`. -/
def firstOcc (pat t : Bytes) : Option Nat :=
  (scanOcc pat t).head?

/-- Number of consecutive decimal digits of `t` starting at index `i`. -/
def isDigitC (c : Char) : Bool := '0' ≤ c && c ≤ '9'

/-- Length of the digit run of `t` at index `i` (the span `\d+` would consume). -/
def digitRunAt (t : Bytes) (i : Nat) : Nat :=
  ((t.drop i).takeWhile isDigitC).length

/-- White-space characters of the format, from `patterns.py` `C[ws]`:
the class `[\x00\x09\x0A\x0C\x0D\x20]`. -/
def isWs (c : Char) : Bool :=
  c = '\x00' || c = '\x09' || c = '\x0A' || c = '\x0C' || c = '\x0D' || c = ' '

/-- Length of the white-space run of `t` at index `i`. -/
def wsRunAt (t : Bytes) (i : Nat) : Nat :=
  ((t.drop i).takeWhile isWs).length

/-- Length of the newline run of `t` at index `i` (the span `\n+`/`\n*` consumes). -/
def nlRunAt (t : Bytes) (i : Nat) : Nat :=
  ((t.drop i).takeWhile (· = '\x0A')).length

/-- Digits of a natural number, as `bytes(str(n), ascii)` renders it. -/
def natDigits (n : Nat) : Bytes :=
  (Nat.toDigits 10 n)

/-- Numeric value of a digit string, as Python `int` reads it. -/
def natOfDigits (ds : Bytes) : Nat :=
  ds.foldl (fun a c => 10 * a + (c.toNat - '0'.toNat)) 0

/-- Lexicographic byte-string comparison, as Python compares `bytes` values
(this is the comparison `del_objs.update_refs` performs on object numbers). -/
def bytesLt : Bytes → Bytes → Bool
  | [], [] => false
  | [], _ :: _ => true
  | _ :: _, [] => false
  | a :: as_, b :: bs =>
    if a < b then true
    else if b < a then false
    else bytesLt as_ bs

/-- Error values raised by the Python code: assertion failures and the
runtime errors the editor can actually hit. -/
inductive PyErr where
  /-- `AssertionError(... mismatched delimiters)` from `pdf_match.find`. -/
  | mismatched
  /-- `IndexError: pop from empty list` in the depth scan of `pdf_match.find`. -/
  | popEmpty
  /-- `AssertionError` from the two asserts of `pdf_dict.parse` (the spec's `InvalidDictionary`). -/
  | invalidDictionary
  /-- `AssertionError('bad pdf? more than one startxref in document')` from `pdf_xrefs.__init__`. -/
  | assertXrefs
  /-- `IndexError: list index out of range` from `list(self.xrefs())[-1]` in `pdf_xrefs.trailer`. -/
  | indexErr
  /-- `StopIteration` from `next(self.find(dicts))` on an empty iterator. -/
  | stopIteration
  /-- `AttributeError` from calling a method on a failed (`None`) regex match in `get_parts`. -/
  | attrErr
  /-- `TypeError: unsupported operand type(s)` from `block.start+i` at editor.py line 176,
  where the bound method `start` is added to an integer without being called. -/
  | typeErr
deriving DecidableEq

/-! ## The bracket matcher `pdf_match.find` (parser.py lines 149-190)

`find(option)` collects the `<<`/`>>` (or `[`/`]`) token positions, asserts the
counts agree, runs a depth-counting scan with a stack of pending start offsets,
emits a span whenever the depth returns to 0, and finally, for each emitted
span sorted by position, yields every occurrence of the span's escaped byte
content found by re-searching the whole region. -/

/-- The two delimiter options of `pdf_match.find`. -/
inductive DelimOpt where
  | dicts
  | arrays
deriving DecidableEq

/-- Start-delimiter token of an option (`<<` or `[`). -/
def startTok : DelimOpt → Bytes
  | .dicts => ['<', '<']
  | .arrays => ['\x5b']

/-- End-delimiter token of an option (`>>` or `]`). -/
def endTok : DelimOpt → Bytes
  | .dicts => ['>', '>']
  | .arrays => ['\x5d']

/-- Merge of the start-token and end-token position lists, sorted by position,
with a start token first on (impossible) ties; this models
`sorted(zip([i.start() for i in ms+me], ms+me))` with Python's stable sort.
The boolean tags a start token. -/
def mergeTokF : Nat → List Nat → List Nat → List (Nat × Bool)
  | 0, _, _ => []
  | _ + 1, [], me => me.map (fun p => (p, false))
  | _ + 1, a :: as_, [] => (a :: as_).map (fun p => (p, true))
  | fuel + 1, a :: as_, b :: bs =>
    if a ≤ b then (a, true) :: mergeTokF fuel as_ (b :: bs)
    else (b, false) :: mergeTokF fuel (a :: as_) bs

/-- Entry point of the token merge, with sufficient fuel. -/
def mergeTok (ms me : List Nat) : List (Nat × Bool) :=
  mergeTokF (ms.length + me.length + 1) ms me

/-- The depth-counting scan of `pdf_match.find`: on a start token push its
offset and increment the depth; on an end token decrement the depth, pop the
pending start, and emit `(popped_start, end_pos + tokLen)` exactly when the
depth returned to 0.  Popping an empty stack is the Python `IndexError`. -/
def bracketScanGo (tl : Nat) : List (Nat × Bool) → Int → List Nat → List (Nat × Nat) →
    Except PyErr (List (Nat × Nat))
  | [], _, _, spans => .ok spans
  | (p, true) :: rest, d, buf, spans => bracketScanGo tl rest (d + 1) (p :: buf) spans
  | (p, false) :: rest, d, buf, spans =>
    match buf with
    | [] => .error .popEmpty
    | s :: buf' =>
      if d - 1 = 0 then bracketScanGo tl rest (d - 1) buf' (spans ++ [(s, p + tl)])
      else bracketScanGo tl rest (d - 1) buf' spans

/-- Insertion into a list of spans sorted by Python's tuple order. -/
def insSpan (x : Nat × Nat) : List (Nat × Nat) → List (Nat × Nat)
  | [] => [x]
  | y :: ys =>
    if y.1 < x.1 || (y.1 = x.1 && y.2 ≤ x.2) then y :: insSpan x ys
    else x :: y :: ys

/-- Model of Python `sorted` on a list of spans (pairs ordered lexicographically). -/
def sortSpans : List (Nat × Nat) → List (Nat × Nat)
  | [] => []
  | x :: xs => insSpan x (sortSpans xs)

/-- The re-search step closing `pdf_match.find`: for each top-level span in
sorted order, every occurrence of the span's byte content in the region is
yielded as a match (`finditer(re.escape(self.text[x[0]:x[1]]))`). -/
def refindSpans (text : Bytes) (spans : List (Nat × Nat)) : List (Nat × Nat) :=
  (sortSpans spans).flatMap (fun x =>
    (scanOcc (slice text x.1 x.2) text).map (fun p => (p, p + (slice text x.1 x.2).length)))

/-- Model of `pdf_match.find` (parser.py lines 149-190).  Returns the spans the
generator yields, or the error it raises. -/
def find (opt : DelimOpt) (text : Bytes) : Except PyErr (List (Nat × Nat)) :=
  let ms := scanOcc (startTok opt) text
  let me := scanOcc (endTok opt) text
  if ms.length = me.length then
    match bracketScanGo (endTok opt).length (mergeTok ms me) 0 [] [] with
    | .error e => .error e
    | .ok spans => .ok (refindSpans text spans)
  else .error .mismatched

/-! ## The pattern library (patterns.py) and the classifier `pdf_match.parse`
(parser.py lines 193-226)

Each matcher below embeds one compiled pattern of `patterns.py` as a
match-at-position function returning the end of the match, and `reScan` turns
it into the corresponding `finditer`. -/

/-- Fuelled generic `finditer`: scan positions left to right, and after a match
resume at its end. -/
def reScanF (matchAt : Bytes → Nat → Option Nat) (t : Bytes) : Nat → Nat → List (Nat × Nat)
  | 0, _ => []
  | fuel + 1, i =>
    if i < t.length then
      match matchAt t i with
      | some e => (i, e) :: reScanF matchAt t fuel (max e (i + 1))
      | none => reScanF matchAt t fuel (i + 1)
    else []

/-- Generic `finditer` over a match-at-position function, yielding spans. -/
def reScan (matchAt : Bytes → Nat → Option Nat) (t : Bytes) : List (Nat × Nat) :=
  reScanF matchAt t (t.length + 1) 0

/-- Character class `C[name]` of patterns.py: anything except `/`, white space
and the delimiters `%<>[]\x7b\x7d()`. -/
def nameChar (c : Char) : Bool :=
  !(c = '/' || isWs c || c = '%' || c = '<' || c = '>' || c = '\x5b' || c = '\x5d'
    || c = '\x7b' || c = '\x7d' || c = '(' || c = ')')

/-- Length of the `C[name]` run of `t` at index `i`. -/
def nameRunAt (t : Bytes) (i : Nat) : Nat :=
  ((t.drop i).takeWhile nameChar).length

/-- Pattern `P[stream]`: `stream(.+?)endstream[ws]+` with DOTALL.  The lazy
group picks the first `endstream` (at distance at least one) that is followed
by at least one white-space character. -/
def streamMatchAt (t : Bytes) (i : Nat) : Option Nat :=
  if matchesAt ['s','t','r','e','a','m'] t i then
    ((scanOcc ['e','n','d','s','t','r','e','a','m'] t).filter (fun j => i + 7 ≤ j)).findSome?
      (fun j => if 0 < wsRunAt t (j + 9) then some (j + 9 + wsRunAt t (j + 9)) else none)
  else none

/-- Pattern `P[ref]`: `(\d+) \d+ R[ws]*`. -/
def refMatchAt (t : Bytes) (i : Nat) : Option Nat :=
  let d1 := digitRunAt t i
  if 0 < d1 && matchesAt [' '] t (i + d1) then
    let d2 := digitRunAt t (i + d1 + 1)
    if 0 < d2 && matchesAt [' ', 'R'] t (i + d1 + 1 + d2) then
      some (i + d1 + 1 + d2 + 2 + wsRunAt t (i + d1 + 1 + d2 + 2))
    else none
  else none

/-- Pattern `P[bool]`: `true|false[ws]*` — by alternation precedence the
white space is only consumed after `false`. -/
def boolMatchAt (t : Bytes) (i : Nat) : Option Nat :=
  if matchesAt ['t','r','u','e'] t i then some (i + 4)
  else if matchesAt ['f','a','l','s','e'] t i then some (i + 5 + wsRunAt t (i + 5))
  else none

/-- Pattern `P[name]`: `/` followed by one or more `C[name]` characters. -/
def nameMatchAt (t : Bytes) (i : Nat) : Option Nat :=
  if matchesAt ['/'] t i && 0 < nameRunAt t (i + 1) then
    some (i + 1 + nameRunAt t (i + 1))
  else none

/-- Pattern `P[null]`: `null[ws]*`. -/
def nullMatchAt (t : Bytes) (i : Nat) : Option Nat :=
  if matchesAt ['n','u','l','l'] t i then some (i + 4 + wsRunAt t (i + 4)) else none

/-- Pattern `P[numeric]`: `[+-]?\d*\.?\d+`. -/
def numericMatchAt (t : Bytes) (i : Nat) : Option Nat :=
  let s : Nat := if matchesAt ['+'] t i || matchesAt ['-'] t i then 1 else 0
  let a := digitRunAt t (i + s)
  if matchesAt ['.'] t (i + s + a) && 0 < digitRunAt t (i + s + a + 1) then
    some (i + s + a + 1 + digitRunAt t (i + s + a + 1))
  else if 0 < a then some (i + s + a)
  else none

/-- The kinds of direct objects the classifier produces (the classes of
dobjects.py). -/
inductive DKind where
  | dict
  | arr
  | stream
  | name
  | ref
  | bool
  | numeric
  | null
deriving DecidableEq

/-- A classified candidate: a kind together with its span. -/
abbrev Cand := DKind × Nat × Nat

/-- The overlap test `in_span` of `pdf_match.parse` (parser.py lines 212-215):
a candidate span `x` is rejected exactly when it is contained in one of the
previously accepted spans `z`, via `z[0] <= x[0] <= x[1] <= z[1]`. -/
def containsSpan (z x : Nat × Nat) : Bool :=
  z.1 ≤ x.1 && x.1 ≤ x.2 && x.2 ≤ z.2

/-- The test `in_span(o.span(), ids)` of `pdf_match.parse`. -/
def in_span (x : Nat × Nat) (ids : List (Nat × Nat)) : Bool :=
  ids.any (fun z => containsSpan z x)

/-- The greedy acceptance loop of `pdf_match.parse` (parser.py lines 218-224):
walk the candidates in order and accept each one not contained in a
previously accepted span. -/
def greedyAccept : List Cand → List Cand → List Cand
  | acc, [] => acc
  | acc, c :: rest =>
    if in_span c.2 (acc.map (fun a => a.2)) then greedyAccept acc rest
    else greedyAccept (acc ++ [c]) rest

/-- Model of `pdf_match.parse` (parser.py lines 193-226): gather the candidate
spans of every kind — the bracket matcher for dictionaries and arrays, the
pattern library for the rest — and accept them greedily in the fixed order
dicts, arrays, streams, names, refs, booleans, numerics, nulls. -/
def parse (t : Bytes) : Except PyErr (List Cand) :=
  match find .dicts t with
  | .error e => .error e
  | .ok ds =>
    match find .arrays t with
    | .error e => .error e
    | .ok ars =>
      let cands : List Cand :=
        ds.map (fun s => (DKind.dict, s))
        ++ ars.map (fun s => (DKind.arr, s))
        ++ (reScan streamMatchAt t).map (fun s => (DKind.stream, s))
        ++ (reScan nameMatchAt t).map (fun s => (DKind.name, s))
        ++ (reScan refMatchAt t).map (fun s => (DKind.ref, s))
        ++ (reScan boolMatchAt t).map (fun s => (DKind.bool, s))
        ++ (reScan numericMatchAt t).map (fun s => (DKind.numeric, s))
        ++ (reScan nullMatchAt t).map (fun s => (DKind.null, s))
      .ok (greedyAccept [] cands)

/-! ## Dictionary pairing `pdf_dict.parse` (dobjects.py lines 65-80) -/

/-- Stable insertion into a list of candidates sorted by span start, modelling
`sorted(zip([i.start() for i in items], items))`. -/
def insByStart (x : Cand) : List Cand → List Cand
  | [] => [x]
  | y :: ys => if y.2.1 ≤ x.2.1 then y :: insByStart x ys else x :: y :: ys

/-- Model of the sort by span start in `pdf_dict.parse`. -/
def sortByStart : List Cand → List Cand
  | [] => []
  | x :: xs => insByStart x (sortByStart xs)

/-- The pairing `zip(items[::2], items[1::2])` of `pdf_dict.parse`. -/
def pairUp : List Cand → List (Cand × Cand)
  | a :: b :: rest => (a, b) :: pairUp rest
  | _ => []

/-- Model of `pdf_dict.parse` applied to the already-classified children
(dobjects.py lines 71-80): assert a positive even count, sort by start, pair
up, and assert that each pair's first component is a Name.  Both assertion
failures are the spec's `InvalidDictionary`. -/
def pdf_dict_pairs (items : List Cand) : Except PyErr (List (Cand × Cand)) :=
  if 0 < items.length && items.length % 2 = 0 then
    let s := sortByStart items
    if (pairUp s).all (fun p => p.1.1 = DKind.name) then .ok (pairUp s)
    else .error .invalidDictionary
  else .error .invalidDictionary

/-- Model of the full `pdf_dict.parse` on a dictionary's byte text: classify
the interior `text[2:-2]` and pair the children.  (The Python code re-locates
the interior inside the dictionary by searching for its escaped content; the
children and their left-to-right order are those of the interior.) -/
def pdf_dict_parse (t : Bytes) : Except PyErr (List (Cand × Cand)) :=
  match parse (slice t 2 (t.length - 2)) with
  | .error e => .error e
  | .ok items => pdf_dict_pairs items

/-- The claim-side alternation condition: in span order, every even-indexed
child is a Name (values at odd positions are arbitrary objects — Name values
such as `/Type /Page` are legal). -/
def alternatesNV : List Cand → Bool
  | [] => true
  | [a] => a.1 = DKind.name
  | a :: _ :: rest => a.1 = DKind.name && alternatesNV rest

/-! ## The reference renumbering `update_refs` (editor.py lines 156-168)

`del_objs` substitutes over the whole document with the pattern
`(\d+)( \d+ (?:R|obj))`.  The replacement function compares the matched
number `m.group(1)` with the deleted object's number `obj.num()` — both raw
byte strings, so the comparison is lexicographic — and keeps, deletes, or
decrements the token. -/

/-- Match of the token pattern `(\d+)( \d+ (?:R|obj))` at a position: returns
the length of group 1 and the end of the whole match. -/
def refTokenAt (t : Bytes) (i : Nat) : Option (Nat × Nat) :=
  let d1 := digitRunAt t i
  if 0 < d1 && matchesAt [' '] t (i + d1) then
    let d2 := digitRunAt t (i + d1 + 1)
    if 0 < d2 then
      if matchesAt [' ', 'R'] t (i + d1 + 1 + d2) then some (d1, i + d1 + 1 + d2 + 2)
      else if matchesAt [' ', 'o', 'b', 'j'] t (i + d1 + 1 + d2) then
        some (d1, i + d1 + 1 + d2 + 4)
      else none
    else none
  else none

/-- The replacement of `update_refs` for a token with first group `m1` and
remainder `m2`, when deleting object number `numN` (editor.py lines 161-167):
Python compares the byte strings, and decrements via `str(int(m1)-1)`. -/
def updateRefRepl (numN m1 m2 : Bytes) : Bytes :=
  if bytesLt m1 numN then m1 ++ m2
  else if m1 = numN then []
  else if natOfDigits m1 = 0 then ['-', '1'] ++ m2
  else natDigits (natOfDigits m1 - 1) ++ m2

/-- Fuelled worker for `update_refs_sub`. -/
def updateRefsF (numN t : Bytes) : Nat → Nat → Bytes
  | 0, _ => []
  | fuel + 1, i =>
    if h : i < t.length then
      match refTokenAt t i with
      | some (d1, e) =>
        updateRefRepl numN (slice t i (i + d1)) (slice t (i + d1) e)
          ++ updateRefsF numN t fuel e
      | none => t.get ⟨i, h⟩ :: updateRefsF numN t fuel (i + 1)
    else []

/-- Model of `re.sub(b'(\d+)( \d+ (?:R|obj))', update_refs, self.text)`
(editor.py line 168) when deleting the object numbered `numN`. -/
def update_refs_sub (numN t : Bytes) : Bytes :=
  updateRefsF numN t (t.length + 1) 0

/-! ## Deleting an object's byte range (editor.py lines 158-159)

The pattern is `\n` + `obj.num()` + `\n \d+ obj.+?endobj\n+` (DOTALL) and every
match is replaced by a single newline. -/

/-- Match of the removal pattern at a position: newline, the object number,
space, digits, ` obj`, a lazy body, `endobj`, and at least one newline. -/
def removeObjAt (numN t : Bytes) (i : Nat) : Option Nat :=
  if matchesAt (['\x0A'] ++ numN ++ [' ']) t i then
    let p0 := i + 1 + numN.length + 1
    let d2 := digitRunAt t p0
    if 0 < d2 && matchesAt [' ', 'o', 'b', 'j'] t (p0 + d2) then
      ((scanOcc ['e','n','d','o','b','j'] t).filter (fun j => p0 + d2 + 4 + 1 ≤ j)).findSome?
        (fun j => if 0 < nlRunAt t (j + 6) then some (j + 6 + nlRunAt t (j + 6)) else none)
    else none
  else none

/-- Fuelled worker for `remove_obj_sub`. -/
def removeObjF (numN t : Bytes) : Nat → Nat → Bytes
  | 0, _ => []
  | fuel + 1, i =>
    if h : i < t.length then
      match removeObjAt numN t i with
      | some e => '\x0A' :: removeObjF numN t fuel e
      | none => t.get ⟨i, h⟩ :: removeObjF numN t fuel (i + 1)
    else []

/-- Model of `p.sub(b'\n', self.text)` for the object-removal pattern
(editor.py lines 158-159). -/
def remove_obj_sub (numN t : Bytes) : Bytes :=
  removeObjF numN t (t.length + 1) 0

/-! ## Parsing the document skeleton

`P[iobj] = (\d+) (\d+) obj\n*(.+?)\n*endobj\n+` (indirect objects),
`P[pdf_hf]` (header and footer split), `P[xrefs]`, `P[xref]`, `P[xitem]`
(the cross-reference grammar). -/

/-- One indirect-object match of `P[iobj]`: its absolute start, the length of
the whole match, and the digit strings of the object number and generation. -/
structure IobjM where
  start : Nat
  len : Nat
  numD : Bytes
  genD : Bytes
deriving DecidableEq

/-- Match of `P[iobj]` at a position: two digit groups, ` obj`, a lazy body of
at least one character, `endobj`, and a greedy run of at least one newline. -/
def iobjMatchAt (t : Bytes) (i : Nat) : Option Nat :=
  let d1 := digitRunAt t i
  if 0 < d1 && matchesAt [' '] t (i + d1) then
    let d2 := digitRunAt t (i + d1 + 1)
    if 0 < d2 && matchesAt [' ', 'o', 'b', 'j'] t (i + d1 + 1 + d2) then
      let p0 := i + d1 + 1 + d2 + 4
      ((scanOcc ['e','n','d','o','b','j'] t).filter (fun j => p0 + 1 ≤ j)).findSome?
        (fun j => if 0 < nlRunAt t (j + 6) then some (j + 6 + nlRunAt t (j + 6)) else none)
    else none
  else none

/-- The `finditer(P[iobj])` matches of a document, with their captured number
and generation groups. -/
def iobjFinditer (t : Bytes) : List IobjM :=
  (reScan iobjMatchAt t).map (fun s =>
    let d1 := digitRunAt t s.1
    let d2 := digitRunAt t (s.1 + d1 + 1)
    { start := s.1, len := s.2 - s.1,
      numD := slice t s.1 (s.1 + d1),
      genD := slice t (s.1 + d1 + 1) (s.1 + d1 + 1 + d2) })

/-- Start of the footer group `(%%EOF\n*)$` of `P[pdf_hf]`: the last
occurrence of `%%EOF` followed only by newlines up to the end of the text. -/
def eofStart (t : Bytes) : Option Nat :=
  ((List.range (t.length + 1)).filter (fun k =>
    matchesAt ['%','%','E','O','F'] t k && (t.drop (k + 5)).all (· = '\x0A'))).getLast?

/-! ### The cross-reference section -/

/-- One 20-byte entry of `P[xitem] = (\d{10}) (\d{5}) ([nf]) \n`. -/
structure XItemM where
  off : Nat
  gen : Nat
  flag : Char
deriving DecidableEq

/-- One block of a cross-reference table: its first object number, declared
count, and entries. -/
structure XBlockM where
  bstart : Nat
  bcount : Nat
  items : List XItemM
deriving DecidableEq

/-- One match of `P[xref]`: its start and end in the region and its blocks.
The blocks agree with what `pdf_xref.blocks()` later re-finds with
`P[xblock]`, whose white-space run absorbs the newline after the block
header. -/
structure XrefM where
  mstart : Nat
  mend : Nat
  blocks : List XBlockM
deriving DecidableEq

/-- Parse `P[xitem]` at a position: exactly ten digits, space, exactly five
digits, space, `n` or `f`, space, newline (20 bytes). -/
def xitemAt (t : Bytes) (i : Nat) : Option XItemM :=
  if digitRunAt t i = 10 && matchesAt [' '] t (i + 10)
      && digitRunAt t (i + 11) = 5 && matchesAt [' '] t (i + 16)
      && (matchesAt ['n'] t (i + 17) || matchesAt ['f'] t (i + 17))
      && matchesAt [' ', '\x0A'] t (i + 18) then
    some { off := natOfDigits (slice t i (i + 10)),
           gen := natOfDigits (slice t (i + 11) (i + 16)),
           flag := if matchesAt ['n'] t (i + 17) then 'n' else 'f' }
  else none

/-- Fuelled parse of a greedy run of `P[xitem]` entries. -/
def xitemsF (t : Bytes) : Nat → Nat → List XItemM × Nat
  | 0, i => ([], i)
  | fuel + 1, i =>
    match xitemAt t i with
    | some it =>
      let r := xitemsF t fuel (i + 20)
      (it :: r.1, r.2)
    | none => ([], i)

/-- Parse one block of `P[xref]`'s group 1 at a position: `\d+ \d+ \n` — note
the literal space the pattern requires before the newline — followed by a
greedy non-empty run of entries.  Returns the block and the end position. -/
def xblockAt (t : Bytes) (i : Nat) : Option (XBlockM × Nat) :=
  let d1 := digitRunAt t i
  if 0 < d1 && matchesAt [' '] t (i + d1) then
    let d2 := digitRunAt t (i + d1 + 1)
    if 0 < d2 && matchesAt [' ', '\x0A'] t (i + d1 + 1 + d2) then
      let p0 := i + d1 + 1 + d2 + 2
      let r := xitemsF t (t.length + 1) p0
      if r.1.isEmpty then none
      else some ({ bstart := natOfDigits (slice t i (i + d1)),
                   bcount := natOfDigits (slice t (i + d1 + 1) (i + d1 + 1 + d2)),
                   items := r.1 }, r.2)
    else none
  else none

/-- Fuelled parse of a greedy non-empty run of blocks. -/
def xblocksF (t : Bytes) : Nat → Nat → List XBlockM × Nat
  | 0, i => ([], i)
  | fuel + 1, i =>
    match xblockAt t i with
    | some (b, e) =>
      let r := xblocksF t fuel e
      (b :: r.1, r.2)
    | none => ([], i)

/-- Match of `P[xref]` at a position:
`xref\n((?:\d+ \d+ \n(?:\d{10} \d{5} [nf] \n)+)+\n*)(trailer\n+<<.+>>\n+)`
with DOTALL — the greedy `.+` makes group 2 end at the last `>>` of the
region that is followed by a newline run. -/
def xrefMatchAt (t : Bytes) (i : Nat) : Option XrefM :=
  if matchesAt ['x','r','e','f','\x0A'] t i then
    let r := xblocksF t (t.length + 1) (i + 5)
    if r.1.isEmpty then none
    else
      let p1 := r.2 + nlRunAt t r.2
      if matchesAt ['t','r','a','i','l','e','r'] t p1 && 0 < nlRunAt t (p1 + 7) then
        let p2 := p1 + 7 + nlRunAt t (p1 + 7)
        if matchesAt ['<','<'] t p2 then
          (((List.range t.length).filter (fun j =>
              p2 + 3 ≤ j && matchesAt ['>','>'] t j && 0 < nlRunAt t (j + 2))).getLast?).map
            (fun j => { mstart := i, mend := j + 2 + nlRunAt t (j + 2), blocks := r.1 })
        else none
      else none
  else none

/-- The `finditer(P[xref])` matches of a region. -/
def xrefFinditer (t : Bytes) : List XrefM :=
  (reScan (fun u i => (xrefMatchAt u i).map (fun m => m.mend)) t).filterMap
    (fun s => xrefMatchAt t s.1)

/-- Whether `P[xrefs] = (xref.+?)+(startxref.+)` (DOTALL) can match at a
position: the literal `xref`, and a later `startxref` — at distance at least
five — with at least one character after it. -/
def xrefsCanMatchAt (t : Bytes) (i : Nat) : Bool :=
  matchesAt ['x','r','e','f'] t i &&
  (List.range t.length).any (fun j =>
    i + 5 ≤ j && matchesAt ['s','t','a','r','t','x','r','e','f'] t j && j + 9 < t.length)

/-- The `finditer(P[xrefs])` matches of a document.  The greedy trailing `.+`
extends any match to the end of the text, so the scan can yield at most one
match, starting at the first position where the pattern matches. -/
def xrefsFinditer (t : Bytes) : List (Nat × Nat) :=
  match (List.range t.length).find? (fun i => xrefsCanMatchAt t i) with
  | some i => [(i, t.length)]
  | none => []

/-- Model of `pdf_xrefs.__init__` (xrefs.py lines 23-31): list the `P[xrefs]`
matches and assert there is exactly one, else raise; on success record the
single match. -/
def pdf_xrefs_init (t : Bytes) : Except PyErr (Nat × Nat) :=
  match xrefsFinditer t with
  | [m] => .ok m
  | _ => .error .assertXrefs

/-- The header pattern `P[pdf_h] = %PDF`. -/
def kwPDF : Bytes := ['%', 'P', 'D', 'F']

/-! ## The consistency check `check_xref` (editor.py lines 114-130)

`get_parts` splits the document with `P[pdf_hf]` into header, indirect
objects, xrefs and footer; `o_offsets` starts with
`(0, P[pdf_h].search(header).start())` and then, for every indirect object,
appends `(int(iobj.num()), iobj.start() + len(header))` — note the added
header length, although `iobj.start()` is already an absolute offset;
`x_offsets` collects `(block.start() + i, item.offset())` from every parsed
xref block; the result is `x_offsets == o_offsets`.  A failed parse (no
`P[pdf_hf]` match, no `%PDF`, or a failed `pdf_xrefs` assertion) raises, which
is modelled as `none`. -/
def check_xref (t : Bytes) : Option Bool :=
  match (iobjFinditer t).head? with
  | none => none
  | some m0 =>
    match eofStart t with
    | none => none
    | some _ =>
      match firstOcc kwPDF (t.take m0.start) with
      | none => none
      | some h0 =>
        match pdf_xrefs_init t with
        | .error _ => none
        | .ok xsm =>
          let ms := iobjFinditer t
          let o := (0, h0) :: ms.map (fun m => (natOfDigits m.numD, m.start + m0.start))
          let x := (xrefFinditer (t.drop xsm.1)).flatMap (fun xm =>
            xm.blocks.flatMap (fun b =>
              (b.items.enum).map (fun p => (b.bstart + p.1, p.2.off))))
          some (x == o)

/-! ## The xref rebuilder `make_xref` (editor.py lines 186-219) -/

/-- The ten-digit zero-padded offset field an object entry is written with:
`b'0'*(10-len(offset)) + offset` (editor.py line 204). -/
def pad10 (n : Nat) : Bytes :=
  List.replicate (10 - (natDigits n).length) '0' ++ natDigits n

/-- The fixed tail ` 00000 n \n` of every object entry (editor.py line 204). -/
def gen0n : Bytes := [' ', '0', '0', '0', '0', '0', ' ', 'n', ' ', '\x0A']

/-- The entry for object 0 (editor.py lines 195-196):
`b'0'*(10-h_offset) + str(h_offset) + ' 65535 f \n'` — the padding count is
ten minus the offset value itself, not minus its digit count. -/
def entry0Of (h0 : Nat) : Bytes :=
  List.replicate (10 - h0) '0' ++ natDigits h0
    ++ [' ', '6', '5', '5', '3', '5', ' ', 'f', ' ', '\x0A']

/-- The entry block `xtext` emitted by `make_xref` (editor.py lines 195-204):
the object-0 entry followed by one entry per surviving indirect object, in
file order, built from the object's byte offset alone — the original
generation numbers are never consulted. -/
def xtextOf (h0 : Nat) (starts : List Nat) : Bytes :=
  entry0Of h0 ++ starts.flatMap (fun s => pad10 s ++ gen0n)

/-- Fuelled worker for `sub_size`. -/
def subSizeF (nE t : Bytes) : Nat → Nat → Bytes
  | 0, _ => []
  | fuel + 1, i =>
    if h : i < t.length then
      if matchesAt ['/', 'S', 'i', 'z', 'e', ' '] t i && 0 < digitRunAt t (i + 6) then
        ['/', 'S', 'i', 'z', 'e', ' '] ++ nE ++ subSizeF nE t fuel (i + 6 + digitRunAt t (i + 6))
      else t.get ⟨i, h⟩ :: subSizeF nE t fuel (i + 1)
    else []

/-- Model of `re.sub(rb'/Size \d+', rb'/Size ' + n_entries, trailer)` from
editor.py line 213. -/
def sub_size (nE t : Bytes) : Bytes :=
  subSizeF nE t (t.length + 1) 0

/-- Model of `pdf_xref.trailer()` (xrefs.py lines 45-46): the first
dictionary the bracket matcher yields on the xref match's text.  An empty
iterator is the Python `StopIteration` of `next(...)`. -/
def trailerOfXref (region : Bytes) (xm : XrefM) : Except PyErr Bytes :=
  let mt := slice region xm.mstart xm.mend
  match find .dicts mt with
  | .error e => .error e
  | .ok [] => .error .stopIteration
  | .ok (sp :: _) => .ok (slice mt sp.1 sp.2)

/-- The new cross-reference section assembled at editor.py lines 212-215:
`b'xref\n0 ' + n_entries + b'\n' + xtext + b'trailer\n' + resized_trailer +
b'\nstartxref\n' + str(xrefs.match.start()) + b'\n'`.  Note the block header
`0 N\n` carries no space before its newline, and the startxref value is the
byte offset at which `P[xrefs]` matched in the input text. -/
def newXrefOf (nE xtext td : Bytes) (sx : Nat) : Bytes :=
  ['x', 'r', 'e', 'f', '\x0A', '0', ' '] ++ nE ++ ['\x0A'] ++ xtext
    ++ ['t', 'r', 'a', 'i', 'l', 'e', 'r', '\x0A'] ++ td
    ++ ['\x0A', 's', 't', 'a', 'r', 't', 'x', 'r', 'e', 'f', '\x0A'] ++ natDigits sx ++ ['\x0A']

/-- Model of `make_xref(repair=True)` (editor.py lines 186-219): re-parse the
document, rebuild the entry block from the objects' current byte offsets,
refresh `/Size`, and reassemble `preamble + new_xref + eof`, where the
preamble is the header followed by the surviving objects' texts.  Parse
failures surface as the corresponding Python errors. -/
def make_xref (t : Bytes) : Except PyErr Bytes :=
  match (iobjFinditer t).head? with
  | none => .error .attrErr
  | some m0 =>
    match eofStart t with
    | none => .error .attrErr
    | some q =>
      match firstOcc kwPDF (t.take m0.start) with
      | none => .error .attrErr
      | some h0 =>
        match pdf_xrefs_init t with
        | .error e => .error e
        | .ok xsm =>
          let ms := iobjFinditer t
          match (xrefFinditer (t.drop xsm.1)).getLast? with
          | none => .error .indexErr
          | some xm =>
            match trailerOfXref (t.drop xsm.1) xm with
            | .error e => .error e
            | .ok td =>
              .ok (t.take m0.start
                ++ ms.flatMap (fun m => slice t m.start (m.start + m.len))
                ++ newXrefOf (natDigits (1 + ms.length))
                     (xtextOf h0 (ms.map (fun m => m.start)))
                     (sub_size (natDigits (1 + ms.length)) td) xsm.1
                ++ t.drop q)

/-! ## The deletion routine `del_objs` (editor.py lines 141-183), for a single
object whose number has digit string `numN`. -/

/-- Model of `del_objs` deleting one object: remove its byte range, rewrite
the reference tokens with `update_refs`, then walk the xref entries — where
line 176 evaluates `block.start+i`, adding the bound method `start` to an
integer, a `TypeError` reached as soon as any entry exists. -/
def del_objs (numN t : Bytes) : Except PyErr Bytes :=
  let t2 := update_refs_sub numN (remove_obj_sub numN t)
  match pdf_xrefs_init t2 with
  | .error e => .error e
  | .ok xsm =>
    if ((xrefFinditer (t2.drop xsm.1)).flatMap (fun xm => xm.blocks)).all
        (fun b => b.items.isEmpty) then
      make_xref t2
    else .error .typeErr

/-- Model of `del_objs` with line 176 read charitably as `block.start()+i`:
the entry lines selected there (lines 171-180) lie inside the region that
`make_xref` regenerates wholesale, and removing them shifts neither the
`xref` keyword, the trailer dictionary, nor any object match, so the
resulting buffer is the one `make_xref` produces on the renumbered text. -/
def del_objs_repaired (numN t : Bytes) : Except PyErr Bytes :=
  make_xref (update_refs_sub numN (remove_obj_sub numN t))

/-! ## Concrete documents and texts used by the theorems below -/

/-- A well-formed three-object document in the code's input grammar: header at
offset 0, objects at offsets 9, 29 and 49, cross-reference table at offset 69
with correct entries, trailer, and startxref pointer. -/
def docThreeStr : String :=
  "%PDF-1.4\n1 0 obj\nnull\nendobj\n2 0 obj\nnull\nendobj\n3 0 obj\nnull\nendobj\nxref\n0 4 \n0000000000 65535 f \n0000000009 00000 n \n0000000029 00000 n \n0000000049 00000 n \ntrailer\n<</Size 4/Root 1 0 R>>\nstartxref\n69\n%%EOF\n"

/-- The three-object document as a byte list. -/
def docThree : Bytes := docThreeStr.data

/-- A two-object document whose xref entries record the true byte offsets of
the object openers (9 and 29) and of the header (0). -/
def docTwoTrueStr : String :=
  "%PDF-1.4\n1 0 obj\nnull\nendobj\n2 0 obj\nnull\nendobj\nxref\n0 3 \n0000000000 65535 f \n0000000009 00000 n \n0000000029 00000 n \ntrailer\n<</Size 3/Root 1 0 R>>\nstartxref\n49\n%%EOF\n"

/-- The true-offset two-object document as a byte list. -/
def docTwoTrue : Bytes := docTwoTrueStr.data

/-- The same two-object document, except that each object entry records the
opener offset plus the header length (18 and 38 instead of 9 and 29). -/
def docTwoShiftStr : String :=
  "%PDF-1.4\n1 0 obj\nnull\nendobj\n2 0 obj\nnull\nendobj\nxref\n0 3 \n0000000000 65535 f \n0000000018 00000 n \n0000000038 00000 n \ntrailer\n<</Size 3/Root 1 0 R>>\nstartxref\n49\n%%EOF\n"

/-- The shifted-offset two-object document as a byte list. -/
def docTwoShift : Bytes := docTwoShiftStr.data

/-- A region holding two top-level dictionaries where the first one's byte
content `<<a>>` recurs nested inside the second. -/
def twoDictStr : String := "<<a>> <<b<<a>> >>"

/-- The two-dictionary region as a byte list. -/
def twoDictText : Bytes := twoDictStr.data

/-- A dictionary containing an array containing a nested dictionary. -/
def nestedDictStr : String := "<<[<<>>]>>"

/-- The nested dictionary text as a byte list. -/
def nestedDictText : Bytes := nestedDictStr.data

/-- A region where an array and a dictionary cross: `[ << ] >>`. -/
def crossStr : String := "[ << ] >>"

/-- The crossing region as a byte list. -/
def crossText : Bytes := crossStr.data

/-- An empty dictionary. -/
def emptyDictStr : String := "<<>>"

/-- The empty dictionary as a byte list. -/
def emptyDictText : Bytes := emptyDictStr.data

/-- A dictionary with two name/value entries. -/
def pairsDictStr : String := "<</A 1/B 2>>"

/-- The two-entry dictionary as a byte list. -/
def pairsDictText : Bytes := pairsDictStr.data

/-- The digit string 10. -/
def numTenStr : String := "10"

/-- The digit string 2. -/
def numTwoStr : String := "2"

/-- A reference token to object 2. -/
def refTwoStr : String := "2 0 R"

/-- A reference token to object 10. -/
def refTenStr : String := "10 0 R"

/-- A text with no cross-reference section at all. -/
def noXrefStr : String := "hello"

/-- A reference token to object 1. -/
def refOneStr : String := "1 0 R"

/-! ## Total views of the quantities `make_xref` computes, used to state the
shape of its output. -/

/-- The header length `get_parts` produces: the offset of the first indirect
object match. -/
def headerLenOf (t : Bytes) : Nat :=
  match (iobjFinditer t).head? with
  | some m => m.start
  | none => 0

/-- The value `h_offset = P[pdf_h].search(header).start()` of editor.py
line 193, as a total function. -/
def hOffOf (t : Bytes) : Nat :=
  (firstOcc kwPDF (t.take (headerLenOf t))).getD 0

/-- The value `xrefs.match.start()` written after `startxref` (editor.py
line 215), as a total function. -/
def startxrefPosOf (t : Bytes) : Nat :=
  match pdf_xrefs_init t with
  | .ok xsm => xsm.1
  | .error _ => 0

/-- The trailer dictionary text `xrefs.trailer().text` used at editor.py
line 214, as a total function. -/
def trailerDictOf (t : Bytes) : Bytes :=
  match pdf_xrefs_init t with
  | .ok xsm =>
    match (xrefFinditer (t.drop xsm.1)).getLast? with
    | some xm => ((trailerOfXref (t.drop xsm.1) xm).toOption).getD []
    | none => []
  | .error _ => []

/-- The buffer `make_xref(repair=True)` writes, expressed through the total
views above. -/
def makeXrefVal (t : Bytes) : Bytes :=
  t.take (headerLenOf t)
    ++ (iobjFinditer t).flatMap (fun m => slice t m.start (m.start + m.len))
    ++ newXrefOf (natDigits (1 + (iobjFinditer t).length))
         (xtextOf (hOffOf t) ((iobjFinditer t).map (fun m => m.start)))
         (sub_size (natDigits (1 + (iobjFinditer t).length)) (trailerDictOf t))
         (startxrefPosOf t)
    ++ t.drop ((eofStart t).getD 0)

/-- The classified children of the dictionary `<</A 1/B 2>>`, in the order the
classifier emits them (names before numerics). -/
def dictChildren : List Cand :=
  [(DKind.name, 0, 2), (DKind.name, 4, 6), (DKind.numeric, 3, 4), (DKind.numeric, 7, 8)]

/-! ## Theorems -/

/-- C1: `update_refs` is claimed to leave a token `M G R` unchanged when
`M < N`, delete it when `M = N` and decrement it when `M > N`, numerically.
The code compares the raw byte strings lexicographically, so deleting object
10 rewrites the reference `2 0 R` — whose number 2 is numerically smaller —
to `1 0 R`, while deleting object 2 leaves `10 0 R` — numerically larger —
unchanged instead of decrementing it. -/
theorem update_refs_lexicographic_bug :
    update_refs_sub numTenStr.data refTwoStr.data = refOneStr.data
      ∧ update_refs_sub numTwoStr.data refTenStr.data = refTenStr.data
      ∧ natOfDigits numTwoStr.data < natOfDigits numTenStr.data := by
  refine ⟨by rfl, by rfl, by decide⟩

/-- C2: deleting object 2 from a well-formed three-object document is claimed
to leave a document on which `check_xref` returns true.  In fact `del_objs`
raises a `TypeError` at editor.py line 176 (`block.start+i` adds the bound
method to an integer), and even with that line repaired the rebuilt document
fails `check_xref`: the rebuilt block header `0 3\n` lacks the trailing space
`P[xref]` demands, so no xref entries parse, and `check_xref` compares entry
offsets against `iobj.start() + len(header)`, which double-counts the
header. -/
theorem del_objs_validate_fails :
    del_objs numTwoStr.data docThree = .error .typeErr
      ∧ Except.map check_xref (del_objs_repaired numTwoStr.data docThree) = .ok (some false) := by
  refine ⟨by rfl, by rfl⟩

/-- C4: `check_xref` is claimed to return true exactly when each recorded
xref offset equals the recomputed file offset of the object's opener (9 and
29 here) and of the header (0).  It returns false on the document recording
the true offsets, and true on the document recording the offsets shifted by
the header length, because line 122 adds `len(header)` to the already
absolute `iobj.start()`. -/
theorem check_xref_offset_bug :
    check_xref docTwoTrue = some false ∧ check_xref docTwoShift = some true := by
  refine ⟨by rfl, by rfl⟩

/-- C7: rebuilding the xref twice is claimed to equal rebuilding it once.
The first `make_xref` succeeds but writes the block header `0 4\n`, while the
parser's `P[xref]` pattern requires a space before the newline (`0 4 \n`), so
on the rebuilt document `P[xref]` finds no match and the second call dies
with an `IndexError` at `list(self.xrefs())[-1]` instead of producing any
buffer. -/
theorem make_xref_not_idempotent :
    (make_xref docThree).isOk = true
      ∧ Except.bind (make_xref docThree) make_xref = .error .indexErr := by
  refine ⟨by rfl, by rfl⟩

/-- C3 counterexample: on the region `<<a>> <<b<<a>> >>` the delimiter counts
agree and the top-level dictionary spans are `(0,5)` and `(6,17)`, yet `find`
also yields `(9,14)` — the nested occurrence of the byte content `<<a>>`
inside the second dictionary — because it re-searches each top-level span's
content over the whole region.  A nested dictionary is thus reported as a
standalone top-level match, refuting the claim. -/
theorem find_reports_nested_span :
    find .dicts twoDictText = .ok [(0, 5), (9, 14), (6, 17)]
      ∧ 6 < 9 ∧ 14 < 17 := by
  refine ⟨by rfl, by decide, by decide⟩

/-- C5 counterexample: on `[ << ] >>` the classifier accepts the dictionary
span `(2,9)` and then the array span `(0,6)`, although the two partially
intersect (they overlap on `[2,6)` and neither contains the other): the
`in_span` test only rejects candidates *contained* in an accepted span, so
the claimed pairwise non-overlap fails. -/
theorem parse_accepts_crossing_spans :
    parse crossText = .ok [(DKind.dict, 2, 9), (DKind.arr, 0, 6)]
      ∧ 0 < 2 ∧ 2 < 6 ∧ 6 < 9 := by
  refine ⟨by rfl, by decide, by decide, by decide⟩

/-- C6 counterexample: the empty dictionary `<<>>` has zero children — an
even count, vacuously alternating — so the claim says the pairing succeeds
with no pairs; but `pdf_dict.parse` asserts `len(items) > 0` and raises
`InvalidDictionary`. -/
theorem dict_parse_empty_fails :
    pdf_dict_parse emptyDictText = .error .invalidDictionary
      ∧ parse (slice emptyDictText 2 (emptyDictText.length - 2)) = .ok []
      ∧ (0 : Nat) % 2 = 0 ∧ alternatesNV [] = true := by
  refine ⟨by rfl, by rfl, by decide, by rfl⟩

/-- C10: the `pdf_xrefs` constructor succeeds exactly when the `P[xrefs]`
match count is one, raises its assertion otherwise, and — since any match of
the greedy pattern extends to the end of the text — the count never
exceeds one. -/
theorem pdf_xrefs_init_exactly_one (t : Bytes) :
    (xrefsFinditer t).length ≤ 1
      ∧ ((∃ m, pdf_xrefs_init t = .ok m) ↔ (xrefsFinditer t).length = 1)
      ∧ ((xrefsFinditer t).length ≠ 1 → pdf_xrefs_init t = .error .assertXrefs) := by
  cases h : (List.range t.length).find? (fun i => xrefsCanMatchAt t i) with
  | none => simp [pdf_xrefs_init, xrefsFinditer, h]
  | some i => simp [pdf_xrefs_init, xrefsFinditer, h]

/-- Witness for C10: a text with no cross-reference section has zero matches
and construction raises the assertion. -/
theorem pdf_xrefs_init_exactly_one_witness :
    pdf_xrefs_init noXrefStr.data = .error .assertXrefs :=
  (pdf_xrefs_init_exactly_one noXrefStr.data).2.2 (by decide)

/-- Inserting into the sort of `pdf_dict.parse` adds one element. -/
theorem insByStart_length (x : Cand) : ∀ l : List Cand, (insByStart x l).length = l.length + 1
  | [] => rfl
  | y :: ys => by
    unfold insByStart
    split
    · simp [insByStart_length x ys]
    · simp

/-- The sort of `pdf_dict.parse` preserves the number of children. -/
theorem sortByStart_length : ∀ l : List Cand, (sortByStart l).length = l.length
  | [] => rfl
  | x :: xs => by simp [sortByStart, insByStart_length, sortByStart_length xs]

/-- On an even-length child list, the check of `pdf_dict.parse` — every pair's
first component is a Name — coincides with the claim-side alternation
condition. -/
theorem alternates_pairUp : ∀ l : List Cand, l.length % 2 = 0 →
    (pairUp l).all (fun p => p.1.1 = DKind.name) = alternatesNV l
  | [], _ => rfl
  | [_], h => by simp at h
  | a :: b :: r, h => by
    have hr : r.length % 2 = 0 := by
      simp only [List.length_cons] at h
      omega
    show (decide (a.1 = DKind.name) && (pairUp r).all (fun p => p.1.1 = DKind.name))
        = (decide (a.1 = DKind.name) && alternatesNV r)
    rw [alternates_pairUp r hr]

/-- C6 (amended): the pairing of `pdf_dict.parse` fails exactly when the
children are empty, odd in number, or some even-indexed child in span order
is not a Name; otherwise it returns the children sorted by span start and
paired into (key, value) tuples. -/
theorem pdf_dict_pairs_amended (items : List Cand) :
    ((pdf_dict_pairs items).isOk = true ↔
        items.length ≠ 0 ∧ items.length % 2 = 0 ∧ alternatesNV (sortByStart items) = true)
      ∧ ((pdf_dict_pairs items).isOk = true →
          pdf_dict_pairs items = .ok (pairUp (sortByStart items))) := by
  by_cases hc : (0 < items.length && items.length % 2 = 0) = true
  · have hev : items.length % 2 = 0 := by
      simp only [Bool.and_eq_true, decide_eq_true_eq] at hc
      exact hc.2
    have hpos : items.length ≠ 0 := by
      simp only [Bool.and_eq_true, decide_eq_true_eq] at hc
      omega
    have halt : (pairUp (sortByStart items)).all (fun p => p.1.1 = DKind.name)
        = alternatesNV (sortByStart items) :=
      alternates_pairUp _ (by rw [sortByStart_length]; exact hev)
    by_cases ha : (pairUp (sortByStart items)).all (fun p => p.1.1 = DKind.name) = true
    · have hres : pdf_dict_pairs items = .ok (pairUp (sortByStart items)) := by
        unfold pdf_dict_pairs
        rw [if_pos hc, if_pos ha]
      rw [hres]
      refine ⟨⟨fun _ => ⟨hpos, hev, by rw [← halt]; exact ha⟩, fun _ => rfl⟩, fun _ => rfl⟩
    · have hres : pdf_dict_pairs items = .error .invalidDictionary := by
        unfold pdf_dict_pairs
        rw [if_pos hc, if_neg ha]
      rw [hres]
      constructor
      · constructor
        · intro h
          exact Bool.noConfusion h
        · intro h
          rw [← halt] at h
          exact absurd h.2.2 ha
      · intro h
        exact Bool.noConfusion h
  · have hres : pdf_dict_pairs items = .error .invalidDictionary := by
      unfold pdf_dict_pairs
      rw [if_neg hc]
    rw [hres]
    constructor
    · constructor
      · intro h
        exact Bool.noConfusion h
      · intro h
        refine absurd ?_ hc
        simp only [Bool.and_eq_true, decide_eq_true_eq]
        exact ⟨Nat.pos_of_ne_zero h.1, h.2.1⟩
    · intro h
      exact Bool.noConfusion h

/-- Witness for C6: a four-child dictionary pairs successfully into its two
(Name, value) tuples. -/
theorem pdf_dict_pairs_amended_witness :
    pdf_dict_pairs dictChildren = .ok (pairUp (sortByStart dictChildren)) :=
  (pdf_dict_pairs_amended dictChildren).2 (by rfl)

/-- The greedy acceptance loop of the classifier preserves the invariant that
no accepted span is contained in a previously accepted span. -/
theorem greedyAccept_pairwise : ∀ (cands acc : List Cand),
    acc.Pairwise (fun a c => containsSpan a.2 c.2 = false) →
    (greedyAccept acc cands).Pairwise (fun a c => containsSpan a.2 c.2 = false)
  | [], _, h => h
  | c :: rest, acc, h => by
    unfold greedyAccept
    by_cases hin : in_span c.2 (acc.map fun a => a.2) = true
    · rw [if_pos hin]
      exact greedyAccept_pairwise rest acc h
    · rw [if_neg hin]
      refine greedyAccept_pairwise rest (acc ++ [c]) ?_
      rw [List.pairwise_append]
      refine ⟨h, List.pairwise_singleton _ _, ?_⟩
      intro a ha b hb
      rw [List.mem_singleton] at hb
      unfold in_span at hin
      simp only [List.any_eq_true, List.mem_map, not_exists, not_and] at hin
      cases hcs : containsSpan a.2 b.2 with
      | false => rfl
      | true =>
        rw [hb] at hcs
        exact absurd hcs (hin a.2 ⟨a, ha, rfl⟩)

/-- C5 (amended): the classifier accepts candidates greedily in the fixed
order dictionaries, arrays, streams, names, references, booleans, numerics,
nulls, skipping a candidate exactly when it is contained in a previously
accepted span; consequently no accepted span is contained in an earlier
accepted span (crossing overlaps remain possible), and a dictionary
containing an array containing a nested dictionary is classified as exactly
one top-level Dictionary object. -/
theorem parse_greedy_amended :
    (∀ (t : Bytes) (els : List Cand), parse t = .ok els →
        els.Pairwise (fun a c => containsSpan a.2 c.2 = false))
      ∧ parse nestedDictText = .ok [(DKind.dict, 0, 10)] := by
  constructor
  · intro t els h
    unfold parse at h
    cases hd : find .dicts t with
    | error e => simp [hd] at h
    | ok ds =>
      cases ha : find .arrays t with
      | error e => simp [hd, ha] at h
      | ok ars =>
        simp only [hd, ha, Except.ok.injEq] at h
        exact h ▸ greedyAccept_pairwise _ [] List.Pairwise.nil
  · rfl

/-- Witness for C5: the two spans accepted on the crossing region satisfy the
non-containment invariant. -/
theorem parse_greedy_amended_witness :
    ([(DKind.dict, 2, 9), (DKind.arr, 0, 6)] : List Cand).Pairwise
      (fun a c => containsSpan a.2 c.2 = false) :=
  parse_greedy_amended.1 crossText _ (by rfl)

/-- In a separated token chain, the head token precedes every later token. -/
theorem chain_sep_all {tl : Nat} : ∀ (x : Nat × Bool) (rest : List (Nat × Bool)),
    List.Chain' (fun a b : Nat × Bool => a.1 + tl ≤ b.1) (x :: rest) →
    ∀ y ∈ rest, x.1 + tl ≤ y.1
  | _, [], _, _, hy => absurd hy (List.not_mem_nil _)
  | x, z :: zs, hch, y, hy => by
    have hxz : x.1 + tl ≤ z.1 := (List.chain'_cons.mp hch).1
    rcases List.mem_cons.mp hy with h | h
    · exact h ▸ hxz
    · have := chain_sep_all z zs (List.chain'_cons.mp hch).2 y h
      omega

/-- Invariant of the depth-counting scan of `pdf_match.find`: starting from a
state where the depth equals the stack height, the stack and the emitted
spans all precede the remaining (separated, sorted) tokens, and the emitted
spans form a disjoint increasing chain of positive extent, the scan's final
spans again form a disjoint increasing chain of positive extent. -/
theorem bracketScan_chain (tl : Nat) : ∀ (toks : List (Nat × Bool)) (d : Int) (buf : List Nat)
    (spans S : List (Nat × Nat)),
    bracketScanGo tl toks d buf spans = .ok S →
    d = buf.length →
    List.Chain' (fun a b : Nat × Bool => a.1 + tl ≤ b.1) toks →
    (∀ b ∈ buf, ∀ tk ∈ toks, b + tl ≤ tk.1) →
    (∀ sp ∈ spans, ∀ tk ∈ toks, sp.2 ≤ tk.1) →
    (∀ sp ∈ spans, ∀ b ∈ buf, sp.2 ≤ b) →
    (∀ sp ∈ spans, sp.1 + tl ≤ sp.2) →
    List.Chain' (fun x y : Nat × Nat => x.2 ≤ y.1) spans →
    List.Chain' (fun x y : Nat × Nat => x.2 ≤ y.1) S ∧ ∀ sp ∈ S, sp.1 + tl ≤ sp.2
  | [], _, _, spans, S, h, _, _, _, _, _, hpos, hch => by
    have hss : spans = S := by
      simpa [bracketScanGo] using h
    exact hss ▸ ⟨hch, hpos⟩
  | (p, true) :: rest, d, buf, spans, S, h, hd, hsep, hbuf, hst, hsb, hpos, hch => by
    refine bracketScan_chain tl rest (d + 1) (p :: buf) spans S h ?_ hsep.tail ?_ ?_ ?_ hpos hch
    · rw [hd]
      simp only [List.length_cons]
      push_cast
      ring
    · intro b hb tk htk
      rcases List.mem_cons.mp hb with h1 | h1
      · exact h1 ▸ chain_sep_all _ _ hsep tk htk
      · exact hbuf b h1 tk (List.mem_cons_of_mem _ htk)
    · intro sp hsp tk htk
      exact hst sp hsp tk (List.mem_cons_of_mem _ htk)
    · intro sp hsp b hb
      rcases List.mem_cons.mp hb with h1 | h1
      · exact h1 ▸ hst sp hsp (p, true) (List.mem_cons_self _ _)
      · exact hsb sp hsp b h1
  | (p, false) :: rest, d, buf, spans, S, h, hd, hsep, hbuf, hst, hsb, hpos, hch => by
    match buf, hd with
    | [], hd => exact Except.noConfusion h
    | s :: buf', hd =>
      by_cases hd0 : d - 1 = 0
      · have hb0 : buf' = [] := by
          rw [List.length_eq_zero.symm]
          rw [hd] at hd0
          simp only [List.length_cons] at hd0
          omega
        subst hb0
        have h' : bracketScanGo tl rest (d - 1) [] (spans ++ [(s, p + tl)]) = .ok S := by
          simpa [bracketScanGo, hd0] using h
        refine bracketScan_chain tl rest (d - 1) [] (spans ++ [(s, p + tl)]) S h'
          (by rw [hd0]; simp) hsep.tail
          (by intro b hb; exact absurd hb (List.not_mem_nil _)) ?_
          (by intro sp hsp b hb; exact absurd hb (List.not_mem_nil _)) ?_ ?_
        · intro sp hsp tk htk
          rcases List.mem_append.mp hsp with h1 | h1
          · exact hst sp h1 tk (List.mem_cons_of_mem _ htk)
          · rw [List.mem_singleton.mp h1]
            exact chain_sep_all _ _ hsep tk htk
        · intro sp hsp
          rcases List.mem_append.mp hsp with h1 | h1
          · exact hpos sp h1
          · rw [List.mem_singleton.mp h1]
            have := hbuf s (List.mem_cons_self _ _) (p, false) (List.mem_cons_self _ _)
            simp only at this ⊢
            omega
        · rw [List.chain'_append]
          refine ⟨hch, List.chain'_singleton _, ?_⟩
          intro x hx y hy
          rw [List.mem_singleton.mp (List.mem_of_mem_head? hy)]
          obtain ⟨hne, hxl⟩ := List.mem_getLast?_eq_getLast hx
          exact hxl ▸ hsb _ (hxl ▸ List.getLast_mem hne) s (List.mem_cons_self _ _)
      · have h' : bracketScanGo tl rest (d - 1) buf' spans = .ok S := by
          simpa [bracketScanGo, hd0] using h
        refine bracketScan_chain tl rest (d - 1) buf' spans S h' ?_ hsep.tail ?_ ?_ ?_ hpos hch
        · rw [hd]
          simp only [List.length_cons]
          push_cast
          ring
        · intro b hb tk htk
          exact hbuf b (List.mem_cons_of_mem _ hb) tk (List.mem_cons_of_mem _ htk)
        · intro sp hsp tk htk
          exact hst sp hsp tk (List.mem_cons_of_mem _ htk)
        · intro sp hsp b hb
          exact hsb sp hsp b (List.mem_cons_of_mem _ hb)

/-- The length of a slice whose end lies within the text. -/
theorem slice_length (t : Bytes) (a b : Nat) : (slice t a b).length = min b t.length - a := by
  simp [slice]

/-- Along a disjoint chain of positive-extent spans, the head's end precedes
every later span's start. -/
theorem chain_le_all : ∀ (x : Nat × Nat) (xs : List (Nat × Nat)),
    List.Chain' (fun u v : Nat × Nat => u.2 ≤ v.1) (x :: xs) →
    (∀ sp ∈ xs, sp.1 < sp.2) → ∀ y ∈ xs, x.2 ≤ y.1
  | _, [], _, _, _, hy => absurd hy (List.not_mem_nil _)
  | x, z :: zs, hch, hpos, y, hy => by
    have hxz : x.2 ≤ z.1 := (List.chain'_cons.mp hch).1
    rcases List.mem_cons.mp hy with h | h
    · exact h ▸ hxz
    · have hz := chain_le_all z zs (List.chain'_cons.mp hch).2
        (fun sp hsp => hpos sp (List.mem_cons_of_mem _ hsp)) y h
      have hzp : z.1 < z.2 := hpos z (List.mem_cons_self _ _)
      omega

/-- A disjoint chain of positive-extent spans is strictly sorted by start. -/
theorem pairwise_fst_lt : ∀ (l : List (Nat × Nat)),
    List.Chain' (fun u v : Nat × Nat => u.2 ≤ v.1) l →
    (∀ sp ∈ l, sp.1 < sp.2) →
    List.Pairwise (fun u v : Nat × Nat => u.1 < v.1) l
  | [], _, _ => List.Pairwise.nil
  | x :: xs, hch, hpos => by
    refine List.Pairwise.cons ?_ (pairwise_fst_lt xs hch.tail
      (fun sp hsp => hpos sp (List.mem_cons_of_mem _ hsp)))
    intro y hy
    have h1 := chain_le_all x xs hch (fun sp hsp => hpos sp (List.mem_cons_of_mem _ hsp)) y hy
    have h2 := hpos x (List.mem_cons_self _ _)
    omega

/-- Inserting an element smaller than every list element leaves it in front. -/
theorem insSpan_forall_lt (x : Nat × Nat) : ∀ l, (∀ y ∈ l, x.1 < y.1) → insSpan x l = x :: l
  | [], _ => rfl
  | y :: ys, h => by
    unfold insSpan
    have hy := h y (List.mem_cons_self _ _)
    have hcond : ¬ (y.1 < x.1 || (y.1 = x.1 && y.2 ≤ x.2)) = true := by
      simp only [Bool.or_eq_true, Bool.and_eq_true, decide_eq_true_eq]
      omega
    rw [if_neg hcond]

/-- Sorting a strictly start-sorted span list is the identity. -/
theorem sortSpans_sorted_eq : ∀ l, List.Pairwise (fun u v : Nat × Nat => u.1 < v.1) l →
    sortSpans l = l
  | [], _ => rfl
  | x :: xs, h => by
    rw [sortSpans, sortSpans_sorted_eq xs (List.pairwise_cons.mp h).2,
      insSpan_forall_lt x xs (List.pairwise_cons.mp h).1]

/-- When every span's content occurs exactly once in the region and spans are
well formed, the re-search step returns the spans themselves. -/
theorem flatMap_refind (text : Bytes) : ∀ (l : List (Nat × Nat)),
    (∀ sp ∈ l, scanOcc (slice text sp.1 sp.2) text = [sp.1]
      ∧ sp.2 ≤ text.length ∧ sp.1 ≤ sp.2) →
    l.flatMap (fun x => (scanOcc (slice text x.1 x.2) text).map
      (fun p => (p, p + (slice text x.1 x.2).length))) = l
  | [], _ => rfl
  | x :: xs, h => by
    have hx := h x (List.mem_cons_self _ _)
    have hlen : (slice text x.1 x.2).length = x.2 - x.1 := by
      rw [slice_length]
      omega
    rw [List.flatMap_cons, hx.1, flatMap_refind text xs
      (fun sp hsp => h sp (List.mem_cons_of_mem _ hsp))]
    simp only [List.map_cons, List.map_nil, hlen, List.singleton_append]
    have : x.1 + (x.2 - x.1) = x.2 := by omega
    rw [this]

/-- C3 (amended): `find` fails with the mismatched-delimiters assertion when
the start- and end-token counts differ; when the counts agree and the depth
scan succeeds on the (separated, sorted) token sequence, the emitted spans
are exactly the spans whose end token returns the depth to 0, they form a
pairwise disjoint increasing chain — so none is nested in another — and,
whenever each such span's byte content occurs nowhere else in the region,
`find` yields exactly these top-level spans.  (With duplicated content the
re-search step also yields other occurrences, including nested ones.) -/
theorem find_amended (opt : DelimOpt) (text : Bytes) :
    ((scanOcc (startTok opt) text).length ≠ (scanOcc (endTok opt) text).length →
        find opt text = .error .mismatched)
      ∧ ∀ S, (scanOcc (startTok opt) text).length = (scanOcc (endTok opt) text).length →
          bracketScanGo (endTok opt).length
              (mergeTok (scanOcc (startTok opt) text) (scanOcc (endTok opt) text)) 0 [] []
            = .ok S →
          List.Chain' (fun a b : Nat × Bool => a.1 + (endTok opt).length ≤ b.1)
              (mergeTok (scanOcc (startTok opt) text) (scanOcc (endTok opt) text)) →
          List.Chain' (fun x y : Nat × Nat => x.2 ≤ y.1) S
            ∧ ((∀ sp ∈ S, scanOcc (slice text sp.1 sp.2) text = [sp.1] ∧ sp.2 ≤ text.length) →
                find opt text = .ok S) := by
  constructor
  · intro hne
    unfold find
    rw [if_neg hne]
  · intro S heq hscan hsep
    have hmain := bracketScan_chain (endTok opt).length _ 0 [] [] S hscan (by simp) hsep
      (fun b hb => absurd hb (List.not_mem_nil _))
      (fun sp hsp => absurd hsp (List.not_mem_nil _))
      (fun sp hsp => absurd hsp (List.not_mem_nil _))
      (fun sp hsp => absurd hsp (List.not_mem_nil _))
      List.chain'_nil
    have htl : 0 < (endTok opt).length := by cases opt <;> simp [endTok]
    have hpos : ∀ sp ∈ S, sp.1 < sp.2 := by
      intro sp hsp
      have := hmain.2 sp hsp
      omega
    refine ⟨hmain.1, ?_⟩
    intro huniq
    have href : refindSpans text S = S := by
      unfold refindSpans
      rw [sortSpans_sorted_eq S (pairwise_fst_lt S hmain.1 hpos)]
      exact flatMap_refind text S (fun sp hsp =>
        ⟨(huniq sp hsp).1, (huniq sp hsp).2, le_of_lt (hpos sp hsp)⟩)
    unfold find
    rw [if_pos heq, hscan]
    show Except.ok (refindSpans text S) = Except.ok S
    rw [href]

/-- Witness for C3: on the nested-dictionary text the token counts agree, the
scan emits the single top-level span `(0,10)`, its content is unique, and
`find` yields exactly that span. -/
theorem find_amended_witness :
    List.Chain' (fun x y : Nat × Nat => x.2 ≤ y.1) [((0 : Nat), (10 : Nat))]
      ∧ find .dicts nestedDictText = .ok [(0, 10)] := by
  have hsep : List.Chain' (fun a b : Nat × Bool => a.1 + (endTok DelimOpt.dicts).length ≤ b.1)
      (mergeTok (scanOcc (startTok DelimOpt.dicts) nestedDictText)
        (scanOcc (endTok DelimOpt.dicts) nestedDictText)) := by
    show List.Chain' (fun a b : Nat × Bool => a.1 + (endTok DelimOpt.dicts).length ≤ b.1)
      [(0, true), (3, true), (5, false), (8, false)]
    simp only [List.chain'_cons, List.chain'_singleton, and_true]
    refine ⟨?_, ?_, ?_⟩ <;> simp [endTok]
  have huniq : ∀ sp ∈ [((0 : Nat), (10 : Nat))],
      scanOcc (slice nestedDictText sp.1 sp.2) nestedDictText = [sp.1]
        ∧ sp.2 ≤ nestedDictText.length := by
    intro sp hsp
    rw [List.mem_singleton.mp hsp]
    exact ⟨by rfl, by decide⟩
  have h := (find_amended .dicts nestedDictText).2 [(0, 10)] (by rfl) (by rfl) hsep
  exact ⟨h.1, h.2 huniq⟩

/-- Whenever `make_xref` succeeds, its output is the buffer `makeXrefVal`
describes. -/
theorem make_xref_ok_decomp (t u : Bytes) (h : make_xref t = .ok u) :
    u = makeXrefVal t := by
  unfold make_xref at h
  split at h
  · exact Except.noConfusion h
  next m0 heq0 =>
    split at h
    · exact Except.noConfusion h
    next q heqq =>
      split at h
      · exact Except.noConfusion h
      next hOff heqh =>
        split at h
        next e heqx => exact Except.noConfusion h
        next xsm heqx =>
          split at h
          · exact Except.noConfusion h
          next xm heql =>
            split at h
            next e heqt => exact Except.noConfusion h
            next td heqt =>
              injection h with h
              rw [← h]
              simp [makeXrefVal, headerLenOf, hOffOf, startxrefPosOf, trailerDictOf,
                heq0, heqq, heqh, heqx, heql, heqt, Except.toOption]

/-- Gluing a prefix with the slices of adjacent in-bounds matches yields the
longer prefix. -/
theorem take_glue : ∀ (ms : List IobjM) (t : Bytes) (a : Nat),
    List.Chain' (fun x y : IobjM => x.start + x.len = y.start) ms →
    (∀ m ∈ ms, m.start + m.len ≤ t.length) →
    (∀ m ∈ ms.head?, m.start = a) →
    t.take a ++ ms.flatMap (fun m => slice t m.start (m.start + m.len))
      = t.take (a + (ms.map (fun m => m.len)).sum)
  | [], t, a, _, _, _ => by simp
  | m :: rest, t, a, hch, hin, hhd => by
    have ha : m.start = a := hhd m rfl
    have hstep : t.take a ++ slice t a (a + m.len) = t.take (a + m.len) := by
      unfold slice
      have h1 : t.take a = (t.take (a + m.len)).take a := by
        rw [List.take_take]
        congr 1
        omega
      rw [h1, List.take_append_drop]
    have hmem : ∀ x ∈ rest, x.start + x.len ≤ t.length :=
      fun x hx => hin x (List.mem_cons_of_mem _ hx)
    have hhd' : ∀ x ∈ rest.head?, x.start = a + m.len := by
      intro x hx
      cases rest with
      | nil => exact absurd hx (by simp)
      | cons r rs =>
        have hx' : r = x := by simpa using hx
        have hrel := (List.chain'_cons.mp hch).1
        rw [← hx', ← hrel, ha]
    rw [List.flatMap_cons, ← List.append_assoc, ha, hstep,
      take_glue rest t (a + m.len) (List.Chain'.tail hch) hmem hhd']
    simp only [List.map_cons, List.sum_cons]
    congr 1
    omega

/-- C8: the number `make_xref` writes after `startxref` — the offset at which
`P[xrefs]` matched in the input — equals the byte offset at which the newly
emitted xref section begins in the output buffer, for any document whose
indirect objects are adjacent, start right after the header, and are followed
directly by the old xref section. -/
theorem make_xref_startxref (t : Bytes) (p : Nat)
    (hchain : List.Chain' (fun x y : IobjM => x.start + x.len = y.start) (iobjFinditer t))
    (hin : ∀ m ∈ iobjFinditer t, m.start + m.len ≤ t.length)
    (hx : xrefsFinditer t = [(p, t.length)])
    (hp : p = headerLenOf t + ((iobjFinditer t).map (fun m => m.len)).sum) :
    (t.take p).length = p
      ∧ ∀ u, make_xref t = .ok u →
          u = t.take p
            ++ newXrefOf (natDigits (1 + (iobjFinditer t).length))
                 (xtextOf (hOffOf t) ((iobjFinditer t).map (fun m => m.start)))
                 (sub_size (natDigits (1 + (iobjFinditer t).length)) (trailerDictOf t)) p
            ++ t.drop ((eofStart t).getD 0) := by
  have hplt : p < t.length := by
    unfold xrefsFinditer at hx
    cases hf : (List.range t.length).find? (fun i => xrefsCanMatchAt t i) with
    | none =>
      rw [hf] at hx
      exact absurd hx (by simp)
    | some i =>
      rw [hf] at hx
      have hip : i = p := by
        have := List.cons.injEq (i, t.length) [] (p, t.length) [] ▸ hx
        simpa using hx
      have hmem := List.mem_of_find?_eq_some hf
      rw [← hip]
      exact List.mem_range.mp hmem
  have hsx : startxrefPosOf t = p := by
    unfold startxrefPosOf pdf_xrefs_init
    rw [hx]
  have hglue := take_glue (iobjFinditer t) t (headerLenOf t) hchain hin (by
    intro m hm
    unfold headerLenOf
    cases hh : (iobjFinditer t).head? with
    | none => exact absurd hm (by rw [hh]; simp)
    | some m1 =>
      rw [hh] at hm
      have hm' : m1 = m := by simpa using hm
      simp only [hh]
      rw [← hm'])
  constructor
  · simp only [List.length_take]
    omega
  · intro u hu
    rw [make_xref_ok_decomp t u hu]
    unfold makeXrefVal
    rw [hglue, ← hp, hsx]

/-- Witness for C8: on the three-object document the new xref section begins
at offset 69 of the output and the written startxref value is 69. -/
theorem make_xref_startxref_witness :
    (docThree.take 69).length = 69
      ∧ make_xref docThree
          = .ok (docThree.take 69
              ++ newXrefOf (natDigits (1 + (iobjFinditer docThree).length))
                   (xtextOf (hOffOf docThree) ((iobjFinditer docThree).map (fun m => m.start)))
                   (sub_size (natDigits (1 + (iobjFinditer docThree).length))
                     (trailerDictOf docThree)) 69
              ++ docThree.drop ((eofStart docThree).getD 0)) := by
  have hval : iobjFinditer docThree
      = [{ start := 9, len := 20, numD := ['1'], genD := ['0'] },
         { start := 29, len := 20, numD := ['2'], genD := ['0'] },
         { start := 49, len := 20, numD := ['3'], genD := ['0'] }] := by rfl
  have hchain : List.Chain' (fun x y : IobjM => x.start + x.len = y.start)
      (iobjFinditer docThree) := by
    rw [hval]
    refine List.chain'_cons.mpr ⟨by decide, List.chain'_cons.mpr ⟨by decide, ?_⟩⟩
    exact List.chain'_singleton _
  have h := make_xref_startxref docThree 69 hchain (by decide) (by rfl) (by rfl)
  obtain ⟨u, hu⟩ : ∃ u, make_xref docThree = .ok u := ⟨_, rfl⟩
  exact ⟨h.1, by rw [hu, h.2 u hu]⟩

/-- C9: every xref table `make_xref` emits consists of the object-0 entry —
the header offset padded by `10 - h_offset` zeros, generation 65535, flag
`f` — followed by one entry per surviving object holding its ten-digit byte
offset, generation `00000` and flag `n`; the entries are built from the
objects' offsets alone, so the original generation numbers are never
preserved. -/
theorem make_xref_entries (t : Bytes) :
    ∀ u, make_xref t = .ok u →
      u = t.take (headerLenOf t)
            ++ (iobjFinditer t).flatMap (fun m => slice t m.start (m.start + m.len))
            ++ newXrefOf (natDigits (1 + (iobjFinditer t).length))
                 (entry0Of (hOffOf t)
                   ++ ((iobjFinditer t).map (fun m => m.start)).flatMap
                        (fun s => pad10 s ++ gen0n))
                 (sub_size (natDigits (1 + (iobjFinditer t).length)) (trailerDictOf t))
                 (startxrefPosOf t)
            ++ t.drop ((eofStart t).getD 0)
        ∧ entry0Of (hOffOf t)
            = List.replicate (10 - hOffOf t) '0' ++ natDigits (hOffOf t)
                ++ [' ', '6', '5', '5', '3', '5', ' ', 'f', ' ', '\x0A']
        ∧ gen0n = [' ', '0', '0', '0', '0', '0', ' ', 'n', ' ', '\x0A'] := by
  intro u hu
  refine ⟨?_, rfl, rfl⟩
  rw [make_xref_ok_decomp t u hu]
  rfl

/-- Witness for C9: the decomposition instantiated on the three-object
document. -/
theorem make_xref_entries_witness :
    make_xref docThree
      = .ok (docThree.take (headerLenOf docThree)
          ++ (iobjFinditer docThree).flatMap
               (fun m => slice docThree m.start (m.start + m.len))
          ++ newXrefOf (natDigits (1 + (iobjFinditer docThree).length))
               (entry0Of (hOffOf docThree)
                 ++ ((iobjFinditer docThree).map (fun m => m.start)).flatMap
                      (fun s => pad10 s ++ gen0n))
               (sub_size (natDigits (1 + (iobjFinditer docThree).length))
                 (trailerDictOf docThree))
               (startxrefPosOf docThree)
          ++ docThree.drop ((eofStart docThree).getD 0)) := by
  obtain ⟨u, hu⟩ : ∃ u, make_xref docThree = .ok u := ⟨_, rfl⟩
  rw [hu, (make_xref_entries docThree u hu).1]

end Pdf
